import Mathlib

/-!
Verification of the seastar metrics registry (`src/core/metrics.cc` together
with the declarations of `metrics_api.hh`) against its specification.

The C++ code is shallowly embedded:

* `std::map` / `std::set` keyed containers are embedded as association lists
  kept in key order by a sorted insert (`ainsert`); iteration order of the
  embedding is the list order, which matches the ordered-map iteration of the
  source.
* the ambient random generator `get_unique_id` (four draws of
  `std::random_device`) is embedded as an injective stream of fresh
  identifiers indexed by a counter that is threaded through the state,
* regular expressions (`relabel_config::expr`, an external library type) are
  embedded abstractly: a rule carries a function `search : String → Option
  String` returning `none` when `std::regex_search` fails and `some s` when it
  succeeds with `s = match.format(replacement)` for that rule's replacement,
* the global handle → registry directory (`get_metric_implementations`) is an
  association list from handles to registry states; lazy creation
  (`try_emplace`) is embedded by defaulting absent handles to the
  freshly-constructed state,
* exceptions are embedded as explicit error results; mutations performed
  before a C++ throw are kept (functions return the state as mutated up to
  the throw point),
* the mutually recursive cross-registry replication calls are embedded with
  an explicit fuel parameter (`none` = fuel exhausted).
-/

namespace SeastarMetrics

/-! ## Generic ordered association maps (embedding of `std::map`) -/

section AssocMap

variable {κ ν : Type} [DecidableEq κ]

/-- Lookup in an association list (`std::map::find`). -/
def alookup : List (κ × ν) → κ → Option ν
  | [], _ => none
  | p :: t, k => if p.1 = k then some p.2 else alookup t k

/-- Ordered insert-or-assign (`std::map::operator[] = v`); `lt` is the key
order of the map. -/
def ainsert (lt : κ → κ → Bool) : List (κ × ν) → κ → ν → List (κ × ν)
  | [], k, v => [(k, v)]
  | p :: t, k, v =>
    if lt k p.1 then (k, v) :: p :: t
    else if p.1 = k then (k, v) :: t
    else p :: ainsert lt t k v

/-- Erase a key (`std::map::erase(key)`); keys are unique in a map, so
removing the first occurrence is the map semantics. -/
def aerase : List (κ × ν) → κ → List (κ × ν)
  | [], _ => []
  | p :: t, k => if p.1 = k then t else p :: aerase t k

theorem alookup_ainsert_self (lt : κ → κ → Bool) (l : List (κ × ν)) (k : κ) (v : ν) :
    alookup (ainsert lt l k v) k = some v := by
  induction l with
  | nil => simp [ainsert, alookup]
  | cons p t ih =>
    simp only [ainsert]
    by_cases h1 : lt k p.1 = true
    · rw [if_pos h1]; simp [alookup]
    · rw [if_neg h1]
      by_cases h2 : p.1 = k
      · rw [if_pos h2]; simp [alookup]
      · rw [if_neg h2]; simp [alookup, h2, ih]

theorem alookup_ainsert_ne (lt : κ → κ → Bool) (l : List (κ × ν)) (k k' : κ) (v : ν)
    (h : k' ≠ k) : alookup (ainsert lt l k v) k' = alookup l k' := by
  induction l with
  | nil => simp [ainsert, alookup, Ne.symm h]
  | cons p t ih =>
    simp only [ainsert]
    by_cases h1 : lt k p.1 = true
    · rw [if_pos h1]; simp [alookup, Ne.symm h]
    · rw [if_neg h1]
      by_cases h2 : p.1 = k
      · rw [if_pos h2]
        simp [alookup, Ne.symm h, h2]
      · rw [if_neg h2]
        simp [alookup, ih]

theorem mem_ainsert (lt : κ → κ → Bool) (l : List (κ × ν)) (k : κ) (v : ν) (p : κ × ν)
    (h : p ∈ ainsert lt l k v) : p = (k, v) ∨ p ∈ l := by
  induction l with
  | nil =>
    simp only [ainsert, List.mem_singleton] at h
    exact Or.inl h
  | cons q t ih =>
    simp only [ainsert] at h
    by_cases h1 : lt k q.1 = true
    · rw [if_pos h1] at h
      rcases List.mem_cons.mp h with h' | h'
      · exact Or.inl h'
      · exact Or.inr h'
    · rw [if_neg h1] at h
      by_cases h2 : q.1 = k
      · rw [if_pos h2] at h
        rcases List.mem_cons.mp h with h' | h'
        · exact Or.inl h'
        · exact Or.inr (List.mem_cons_of_mem _ h')
      · rw [if_neg h2] at h
        rcases List.mem_cons.mp h with h' | h'
        · exact Or.inr (h' ▸ List.mem_cons_self _ _)
        · rcases ih h' with h'' | h''
          · exact Or.inl h''
          · exact Or.inr (List.mem_cons_of_mem _ h'')

theorem length_ainsert_of_alookup_none (lt : κ → κ → Bool) (l : List (κ × ν)) (k : κ) (v : ν)
    (h : alookup l k = none) : (ainsert lt l k v).length = l.length + 1 := by
  induction l with
  | nil => simp [ainsert]
  | cons p t ih =>
    simp only [alookup] at h
    by_cases h2 : p.1 = k
    · simp [h2] at h
    · rw [if_neg h2] at h
      simp only [ainsert]
      by_cases h1 : lt k p.1 = true
      · rw [if_pos h1]; simp
      · rw [if_neg h1, if_neg h2]
        simp [ih h]

/-- Replace the value stored at an existing key, leaving the list unchanged
when the key is absent.  This embeds in-place mutation of a `std::map` value
through an iterator or a reference (the entry keeps its position). -/
def aupdate : List (κ × ν) → κ → ν → List (κ × ν)
  | [], _, _ => []
  | p :: t, k, v => if p.1 = k then (k, v) :: t else p :: aupdate t k v

theorem aupdate_of_alookup_self (l : List (κ × ν)) (k : κ) (v : ν)
    (h : alookup l k = some v) : aupdate l k v = l := by
  induction l with
  | nil => rfl
  | cons p t ih =>
    obtain ⟨pk, pv⟩ := p
    simp only [alookup] at h
    by_cases h2 : pk = k
    · simp only [h2, if_pos] at h
      cases h
      simp [aupdate, h2]
    · rw [if_neg h2] at h
      simp [aupdate, h2, ih h]

theorem alookup_aupdate_self (l : List (κ × ν)) (k : κ) (v : ν)
    (hmem : (alookup l k).isSome) : alookup (aupdate l k v) k = some v := by
  induction l with
  | nil => simp [alookup] at hmem
  | cons p t ih =>
    by_cases h2 : p.1 = k
    · simp [aupdate, h2, alookup]
    · rw [alookup, if_neg h2] at hmem
      simp [aupdate, h2, alookup, ih hmem]

theorem alookup_aupdate_ne (l : List (κ × ν)) (k k' : κ) (v : ν)
    (h : k' ≠ k) : alookup (aupdate l k v) k' = alookup l k' := by
  induction l with
  | nil => rfl
  | cons p t ih =>
    by_cases h2 : p.1 = k
    · simp [aupdate, h2, alookup, Ne.symm h]
    · simp [aupdate, h2, alookup, ih]

theorem aerase_of_alookup_none (l : List (κ × ν)) (k : κ)
    (h : alookup l k = none) : aerase l k = l := by
  induction l with
  | nil => rfl
  | cons p t ih =>
    simp only [alookup] at h
    by_cases h2 : p.1 = k
    · simp [h2] at h
    · rw [if_neg h2] at h
      simp [aerase, h2, ih h]

theorem alookup_eq_none_iff (l : List (κ × ν)) (k : κ) :
    alookup l k = none ↔ k ∉ l.map Prod.fst := by
  induction l with
  | nil => simp [alookup]
  | cons p t ih =>
    simp only [alookup, List.map_cons, List.mem_cons]
    by_cases h2 : p.1 = k
    · simp [h2]
    · simp [h2, ih, Ne.symm h2]

end AssocMap

/-! ## Key orders

`std::map<sstring, ...>` orders keys by string comparison, `labels_type`
(`std::map<sstring, sstring>`) compares pairs lexicographically and whole
label maps by `std::lexicographical_compare` over `(key, value)` pairs. -/

def charLt (a b : Char) : Bool := decide (a.val < b.val)

/-- Lexicographic comparison of character sequences (the order of
`std::map<sstring, ...>` keys). -/
def charListLt : List Char → List Char → Bool
  | [], [] => false
  | [], _ :: _ => true
  | _ :: _, [] => false
  | a :: as, b :: bs =>
    if charLt a b then true else if charLt b a then false else charListLt as bs

def strLt (a b : String) : Bool := charListLt a.data b.data

def intLt (a b : Int) : Bool := decide (a < b)

/-- `labels_type = std::map<sstring, sstring>`: an association list kept in
key order. -/
abbrev Labels := List (String × String)

def pairLt (a b : String × String) : Bool :=
  strLt a.1 b.1 || (a.1 = b.1 && strLt a.2 b.2)

/-- Lexicographic comparison of two label maps (`std::map::operator<`). -/
def labelsLt : Labels → Labels → Bool
  | [], [] => false
  | [], _ :: _ => true
  | _ :: _, [] => false
  | a :: as, b :: bs =>
    if pairLt a b then true else if pairLt b a then false else labelsLt as bs

/-- Ordered insert into a `std::set<sstring>` (used for `impl::_labels`). -/
def strSetInsert : List String → String → List String
  | [], s => [s]
  | a :: t, s =>
    if strLt s a then s :: a :: t
    else if a = s then a :: t
    else a :: strSetInsert t s

/-! ## Identity and value data model (`metrics_api.hh`) -/

/-- `safe_name` (metrics.cc): replace every `-` and every space by `_`, then
erase every `+`, `(`, `)`. -/
def safe_name (s : String) : String :=
  let rep := ((s.data.map fun c => if c = '-' then '_' else c).map
      fun c => if c = ' ' then '_' else c)
  String.mk (rep.filter fun c => ¬(c = '+' ∨ c = '(' ∨ c = ')'))

/-- `metric_id::full_name()`: the sanitized `group + "_" + name`. -/
def full_name (group name : String) : String :=
  safe_name (group ++ "_" ++ name)

/-- Modelled from the spec: the sanitization described in the specification
("replace `-` and space with `_`; strip `+`, `(`, `)`"), written as a single
pass; used only to compare the code's `safe_name` against the spec's words. -/
def spec_sanitize (s : String) : String :=
  String.mk (s.data.filterMap fun c =>
    if c = '-' ∨ c = ' ' then some '_'
    else if c = '+' ∨ c = '(' ∨ c = ')' then none
    else some c)

/-- The base data type of a metric family (`data_type` of `metrics.hh`). -/
inductive DataType
  | counter
  | gauge
  | derive
  | histogramType
deriving DecidableEq

/-- `metric_type`: the base type together with the inherited type name. -/
structure MetricType where
  base_type : DataType
  type_name : String
deriving DecidableEq

/-- `metric_id`: group name, metric name and label set. -/
structure metric_id where
  group : String
  name : String
  labels : Labels
deriving DecidableEq

def metric_id.fullName (id : metric_id) : String := full_name id.group id.name

/-- `metric_info`: the mutable per-metric data relabeling operates on.
`original` is `original_labels`, the immutable pre-relabel baseline;
`skip` is `should_skip_when_empty` (`skip_when_empty::yes/no`). -/
structure metric_info where
  group : String
  name : String
  labels : Labels
  original : Labels
  enabled : Bool
  skip : Bool
deriving DecidableEq

def metric_info.fullName (i : metric_info) : String := full_name i.group i.name

/-- `registered_metric`: metric info plus the value-producing function.  The
function itself is opaque data for this development; it is embedded as an
abstract token that the registry stores and copies. -/
structure registered_metric where
  info : metric_info
  fn : Nat
deriving DecidableEq

/-- `metric_family_info`. -/
structure metric_family_info where
  ftype : DataType
  inherit_type : String
  d : String
  fname : String
  aggregate_labels : List String
deriving DecidableEq

/-- `metric_family`: label-set-keyed instances plus shared family info. -/
structure metric_family where
  instances : List (Labels × registered_metric)
  finfo : metric_family_info
deriving DecidableEq

/-- `relabel_config::relabel_action`. -/
inductive relabel_action
  | replace
  | skip_when_empty
  | report_when_empty
  | keep
  | drop
  | drop_label
deriving DecidableEq

/-- `relabel_config`.  `search` abstracts the external regex engine: applied
to the built source string it returns `none` when `regex_search` finds no
match, and `some s` when it matches with `s` the `match.format(replacement)`
expansion for this rule's replacement template. -/
structure relabel_config where
  source_labels : List String
  separator : String
  search : String → Option String
  action : relabel_action
  target_label : String

/-! ## Relabel engine (`apply_relabeling`, metrics.cc) -/

/-- The source-string construction of `apply_relabeling`: concatenate the
source labels' values joined by the separator; `__name__` resolves to the
full name; a missing (non-`__name__`) source label aborts with `none`. -/
def build_source (labels : Labels) (sep fullname : String) :
    List String → Bool → String → Option String
  | [], _, acc => some acc
  | l :: t, first, acc =>
    match alookup labels l with
    | none =>
        if l = "__name__" then
          build_source labels sep fullname t false
            (acc ++ (if first then "" else sep) ++ fullname)
        else none
    | some v =>
        build_source labels sep fullname t false
          (acc ++ (if first then "" else sep) ++
            (if l = "__name__" then fullname else v))

/-- `apply_relabeling(rc, info)`: returns the `changed` flag and the updated
info. -/
def apply_relabeling (rc : relabel_config) (i : metric_info) : Bool × metric_info :=
  match build_source i.labels rc.separator i.fullName rc.source_labels true "" with
  | none => (false, i)
  | some s =>
    match rc.search s with
    | none => (false, i)
    | some fmt =>
      match rc.action with
      | .drop => (true, { i with enabled := false })
      | .keep => (true, { i with enabled := true })
      | .report_when_empty => (false, { i with skip := false })
      | .skip_when_empty => (false, { i with skip := true })
      | .drop_label => (true, { i with labels := aerase i.labels rc.target_label })
      | .replace =>
          (true,
            if rc.target_label = "" then i
            else { i with labels := ainsert strLt i.labels rc.target_label fmt })

/-- Apply every active rule in order (the metric-info thread of the rule loop
in `add_registration` / `set_relabel_configs`). -/
def apply_rules : List relabel_config → metric_info → metric_info
  | [], i => i
  | rc :: t, i => apply_rules t (apply_relabeling rc i).2

/-- Whether any rule application in the loop reported a change (each `true`
triggers a `dirty()` call in `set_relabel_configs`). -/
def apply_rules_changed : List relabel_config → metric_info → Bool
  | [], _ => false
  | rc :: t, i => (apply_relabeling rc i).1 || apply_rules_changed t (apply_relabeling rc i).2

/-- The label reset at the head of the `set_relabel_configs` loop
(`labels().clear(); labels() = original_labels`). -/
def reset_info (i : metric_info) : metric_info := { i with labels := i.original }

/-! ## Registry state (`class impl`) and the handle directory -/

/-- State of one `metrics::impl::impl` instance.  `metadata` is the cached
snapshot `_metadata` (shared metadata tree), `current_metrics` the parallel
value-function table `_current_metrics` (function tokens), `label_names` the
`_labels` set, and `uid_counter` indexes the fresh-identifier stream that
embeds `get_unique_id`'s random draws. -/
structure impl_state where
  value_map : List (String × metric_family)
  dirty : Bool
  metadata : List (metric_family_info × List metric_info)
  current_metrics : List (List Nat)
  label_names : List String
  relabel_configs : List relabel_config
  families_to_replicate : List (String × Int)
  uid_counter : Nat

/-- A freshly constructed `impl` (`_dirty = true`, everything else empty). -/
def empty_impl : impl_state :=
  { value_map := []
    dirty := true
    metadata := []
    current_metrics := []
    label_names := []
    relabel_configs := []
    families_to_replicate := []
    uid_counter := 0 }

/-- The global handle → registry directory (`get_metric_implementations`). -/
abbrev directory := List (Int × impl_state)

/-- Embeds `get_local_impl(handle)`: the lazy `try_emplace` creation is
embedded by defaulting an absent handle to the freshly constructed state. -/
def get_local_impl (d : directory) (h : Int) : impl_state :=
  (alookup d h).getD empty_impl

def set_local_impl (d : directory) (h : Int) (s : impl_state) : directory :=
  ainsert intLt d h s

/-- Embeds `get_unique_id()`: draw `n` of an injective stream of fresh
identifiers (the source concatenates four `std::random_device` draws). -/
def get_unique_id (n : Nat) : String := "uid-" ++ toString n

/-! ## `impl::set_relabel_configs` -/

/-- Result of the in-place pass over one family in `set_relabel_configs`:
the entries that kept their key, the displaced metrics (`rms`, in iteration
order), and whether any `dirty()` call fired. -/
structure phase1_result where
  kept : List (Labels × registered_metric)
  rms : List registered_metric
  changed : Bool

/-- First half of the per-family loop of `set_relabel_configs`: reset each
metric's labels to its original labels, apply all rules, keep the entry when
its key still equals its label set and otherwise move it to `rms` (erasing it
from the map). -/
def relabel_phase1 (R : List relabel_config) :
    List (Labels × registered_metric) → phase1_result
  | [] => ⟨[], [], false⟩
  | p :: t =>
    let info := apply_rules R (reset_info p.2.info)
    let ch := apply_rules_changed R (reset_info p.2.info)
    let rm' : registered_metric := ⟨info, p.2.fn⟩
    let rest := relabel_phase1 R t
    if p.1 = info.labels then ⟨(p.1, rm') :: rest.kept, rest.rms, ch || rest.changed⟩
    else ⟨rest.kept, rm' :: rest.rms, true⟩

/-- Result of the re-insertion loop: the family map, the running conflict
counter and the fresh-identifier counter. -/
structure phase2_result where
  fam : List (Labels × registered_metric)
  conflicts : Nat
  ctr : Nat

/-- Second half of the per-family loop of `set_relabel_configs`: re-insert
each displaced metric; on a key collision append the synthetic
`err -> <unique id>` label to both the insertion key and the metric's label
set and count the conflict. -/
def relabel_phase2 :
    List registered_metric → List (Labels × registered_metric) → Nat → Nat → phase2_result
  | [], fam, conflicts, ctr => ⟨fam, conflicts, ctr⟩
  | rm :: t, fam, conflicts, ctr =>
    let lb := rm.info.labels
    if (alookup fam lb).isSome then
      let id := get_unique_id ctr
      let lb' := ainsert strLt lb "err" id
      let rm' : registered_metric :=
        ⟨{ rm.info with labels := ainsert strLt rm.info.labels "err" id }, rm.fn⟩
      relabel_phase2 t (ainsert labelsLt fam lb' rm') (conflicts + 1) (ctr + 1)
    else relabel_phase2 t (ainsert labelsLt fam lb rm) conflicts ctr

/-- Accumulated result of walking all families. -/
structure relabel_go_result where
  vm : List (String × metric_family)
  conflicts : Nat
  ctr : Nat
  changed : Bool

/-- The family walk of `set_relabel_configs` (threading the conflict counter
and the fresh-identifier counter through the families in map order). -/
def set_relabel_go (R : List relabel_config) :
    List (String × metric_family) → Nat → Nat → relabel_go_result
  | [], conflicts, ctr => ⟨[], conflicts, ctr, false⟩
  | (n, fam) :: t, conflicts, ctr =>
    let p1 := relabel_phase1 R fam.instances
    let p2 := relabel_phase2 p1.rms p1.kept conflicts ctr
    let rest := set_relabel_go R t p2.conflicts p2.ctr
    ⟨(n, { fam with instances := p2.fam }) :: rest.vm, rest.conflicts, rest.ctr,
      p1.changed || rest.changed⟩

/-- `impl::set_relabel_configs`: install the new rule list, re-evaluate every
family, and return the new state together with the returned
`metric_relabeling_result` conflict count. -/
def set_relabel_configs (s : impl_state) (R : List relabel_config) : impl_state × Nat :=
  let r := set_relabel_go R s.value_map 0 s.uid_counter
  ({ s with
      relabel_configs := R
      value_map := r.vm
      uid_counter := r.ctr
      dirty := s.dirty || r.changed }, r.conflicts)

/-! ## `impl::add_registration` and replication -/

/-- Registration-time errors: `double_registration` and the
`std::runtime_error` thrown on a base-type mismatch. -/
inductive reg_error
  | double_registration (msg : String)
  | type_mismatch (msg : String)
deriving DecidableEq

/-- The `registered_metric` constructor followed by the rule loop of
`add_registration`: the metric starts from the identity's labels (which also
become `original_labels`) and is run through every active rule. -/
def post_relabel_info (s : impl_state) (id : metric_id) (enabled skip : Bool) :
    metric_info :=
  apply_rules s.relabel_configs ⟨id.group, id.name, id.labels, id.labels, enabled, skip⟩

/-- The local (single-registry) part of `impl::add_registration`: build the
metric, run it through the active rules, check for duplicates and type
mismatches, and insert.  The second component is the thrown exception, if
any; both checks precede every mutation, so on an error the state is
returned unchanged. -/
def add_registration_local (s : impl_state) (id : metric_id) (ty : MetricType)
    (f : Nat) (d : String) (enabled skip : Bool) (aggregate_labels : List String) :
    impl_state × Option reg_error :=
  let info := post_relabel_info s id enabled skip
  let rm : registered_metric := ⟨info, f⟩
  let name := id.fullName
  match alookup s.value_map name with
  | some fam =>
    if (alookup fam.instances info.labels).isSome then
      (s, some (.double_registration ("registering metrics twice for metrics: " ++ name)))
    else if fam.finfo.ftype ≠ ty.base_type then
      (s, some (.type_mismatch ("registering metrics " ++ name ++ " registered with different type.")))
    else
      ({ s with
          value_map := aupdate s.value_map name
            { fam with instances := ainsert labelsLt fam.instances info.labels rm }
          label_names := info.labels.foldl (fun acc p => strSetInsert acc p.1) s.label_names
          dirty := true }, none)
  | none =>
      ({ s with
          value_map := ainsert strLt s.value_map name
            ⟨[(info.labels, rm)], ⟨ty.base_type, ty.type_name, d, name, aggregate_labels⟩⟩
          dirty := true }, none)

/-- Placeholder family for the (unreachable) `getD` of `_value_map.at`. -/
def default_family : metric_family := ⟨[], ⟨.gauge, "", "", "", []⟩⟩

/-- The destination walk of `replicate_metric_if_required`: for every matching
replication entry, re-register the metric at the destination through the
destination's own registration path (`add` is the recursive registration
function at one fuel level lower).  A destination-side exception unwinds,
keeping all directory mutations made so far. -/
def replicate_list
    (add : directory → Int → metric_id → MetricType → Nat → String → Bool → Bool →
      List String → Option (directory × Option reg_error)) :
    directory → Int → List (String × Int) → String → metric_id → Nat → Bool → Bool →
      Option (directory × Option reg_error)
  | dir, _, [], _, _, _, _, _ => some (dir, none)
  | dir, h, (_, dest) :: t, name, rmId, f, en, sk =>
    let fam := (alookup (get_local_impl dir h).value_map name).getD default_family
    let ty : MetricType := ⟨fam.finfo.ftype, fam.finfo.inherit_type⟩
    match add dir dest rmId ty f fam.finfo.d en sk fam.finfo.aggregate_labels with
    | none => none
    | some (dir', some e) => some (dir', some e)
    | some (dir', none) => replicate_list add dir' h t name rmId f en sk

/-- `impl::add_registration` at directory level, including
`replicate_metric_if_required`.  `none` means the fuel for the (in C++
unboundedly recursive) replication chain ran out.  The returned directory
reflects all mutations made before a thrown exception. -/
def add_registration : Nat → directory → Int → metric_id → MetricType → Nat → String →
    Bool → Bool → List String → Option (directory × Option reg_error)
  | 0, _, _, _, _, _, _, _, _, _ => none
  | fuel + 1, dir, h, id, ty, f, d, enabled, skip, agg =>
    let s := get_local_impl dir h
    let r := add_registration_local s id ty f d enabled skip agg
    match r.2 with
    | some e => some (dir, some e)
    | none =>
      let dir1 := set_local_impl dir h r.1
      let name := id.fullName
      let info := post_relabel_info s id enabled skip
      let rmId : metric_id := ⟨info.group, info.name, info.labels⟩
      replicate_list (fun d2 h2 i2 t2 f2 d3 e2 s2 a2 =>
          add_registration fuel d2 h2 i2 t2 f2 d3 e2 s2 a2)
        dir1 h (r.1.families_to_replicate.filter fun p => p.1 = name)
        name rmId f info.enabled info.skip

/-! ## `impl::remove_registration` -/

/-- The local (single-registry) part of `impl::remove_registration`: erase
the label-set entry if present, drop the family if it became empty, and mark
the cache dirty whenever the family was found. -/
def remove_registration_local (s : impl_state) (id : metric_id) : impl_state :=
  match alookup s.value_map id.fullName with
  | none => s
  | some fam =>
    let fam' := { fam with instances := aerase fam.instances id.labels }
    let vm :=
      if fam'.instances.isEmpty then aerase s.value_map id.fullName
      else aupdate s.value_map id.fullName fam'
    { s with value_map := vm, dirty := true }

/-- The destination walk of `remove_metric_replica_if_required` (`rem` is the
recursive removal at one fuel level lower). -/
def remove_replicas (rem : directory → Int → metric_id → Option directory) :
    directory → List (String × Int) → metric_id → Option directory
  | dir, [], _ => some dir
  | dir, (_, dest) :: t, id =>
    match rem dir dest id with
    | none => none
    | some dir' => remove_replicas rem dir' t id

/-- `impl::remove_registration` at directory level: first mirror the removal
to every matching replication destination, then remove locally. -/
def remove_registration : Nat → directory → Int → metric_id → Option directory
  | 0, _, _, _ => none
  | fuel + 1, dir, h, id =>
    let ms := (get_local_impl dir h).families_to_replicate.filter
      fun p => p.1 = id.fullName
    match remove_replicas (fun d2 h2 i2 => remove_registration fuel d2 h2 i2) dir ms id with
    | none => none
    | some dir1 =>
      some (set_local_impl dir1 h (remove_registration_local (get_local_impl dir1 h) id))

/-! ## Scoped registration handles (`metric_groups_impl`) -/

/-- `metric_groups_impl`: the handle and the list of recorded identities. -/
structure metric_groups_impl where
  handle : Int
  registration : List metric_id

/-- `metric_groups_impl::add_metric`: build the identity from the pre-relabel
definition, register it, and append the identity to `_registration` (the
append is skipped when registration throws, since `push_back` follows the
call). -/
def metric_groups_add_metric (fuel : Nat) (dir : directory) (g : metric_groups_impl)
    (group_name name : String) (labels : Labels) (ty : MetricType) (f : Nat)
    (d : String) (enabled skip : Bool) (agg : List String) :
    Option (directory × metric_groups_impl × Option reg_error) :=
  let id : metric_id := ⟨group_name, name, labels⟩
  match add_registration fuel dir g.handle id ty f d enabled skip agg with
  | none => none
  | some (dir', some e) => some (dir', g, some e)
  | some (dir', none) =>
      some (dir', { g with registration := g.registration ++ [id] }, none)

/-- The destructor of `metric_groups_impl`: `unregister_metric` for every
recorded identity, in order. -/
def metric_groups_destroy (fuel : Nat) (dir : directory) (g : metric_groups_impl) :
    Option directory :=
  g.registration.foldl
    (fun od id => od.bind fun d => remove_registration fuel d g.handle id) (some dir)

/-! ## Snapshot rebuild (`impl::update_metrics_if_needed`) -/

/-- One iteration of the rebuild loop: gather the enabled members' info and
function tokens; write the function list into slot `i` of
`_current_metrics`; append the family metadata and advance `i` only when some
member was enabled. -/
def build_step
    (acc : List (metric_family_info × List metric_info) × List (List Nat) × Nat)
    (fp : String × metric_family) :
    List (metric_family_info × List metric_info) × List (List Nat) × Nat :=
  let metrics := fp.2.instances.filterMap fun p =>
    if p.2.info.enabled then some p.2.info else none
  let fns := fp.2.instances.filterMap fun p =>
    if p.2.info.enabled then some p.2.fn else none
  let cm := acc.2.1.set acc.2.2 fns
  if metrics.isEmpty then (acc.1, cm, acc.2.2)
  else (acc.1 ++ [(fp.2.finfo, metrics)], cm, acc.2.2 + 1)

/-- `std::vector::resize` on the function table: truncate or pad with empty
rows. -/
def resize_cm (l : List (List Nat)) (n : Nat) : List (List Nat) :=
  l.take n ++ List.replicate (n - l.length) []

/-- `impl::update_metrics_if_needed`, run to completion: when dirty, rebuild
the metadata into a fresh structure (the cache slot having first been reset
to an empty snapshot), rewrite the function table in place, then install the
new snapshot and clear the dirty flag. -/
def update_metrics_if_needed (s : impl_state) : impl_state :=
  if s.dirty then
    let r := s.value_map.foldl build_step
      ([], resize_cm s.current_metrics s.value_map.length, 0)
    { s with metadata := r.1, current_metrics := resize_cm r.2.1 r.2.2, dirty := false }
  else s

/-- The state observed if an exception interrupts the rebuild after `k`
families were processed: `_metadata` was reset to the empty snapshot at the
start, `_current_metrics` holds the partially rewritten table, and `_dirty`
was never cleared. -/
def update_metrics_fail_at (s : impl_state) (k : Nat) : impl_state :=
  if s.dirty then
    let r := (s.value_map.take k).foldl build_step
      ([], resize_cm s.current_metrics s.value_map.length, 0)
    { s with metadata := [], current_metrics := r.2.1 }
  else s

/-- `impl::metadata()`: rebuild if needed, then return the cached snapshot. -/
def impl_metadata (s : impl_state) :
    impl_state × List (metric_family_info × List metric_info) :=
  let s' := update_metrics_if_needed s
  (s', s'.metadata)

/-- `impl::functions()`: rebuild if needed, then return the function table. -/
def impl_functions (s : impl_state) : impl_state × List (List Nat) :=
  let s' := update_metrics_if_needed s
  (s', s'.current_metrics)

/-! ## Histograms (`histogram::operator+=`, metrics.cc)

The histogram data model (`metrics_types.hh`, not part of the sources here)
is the spec's "ordered list of (upper_bound, count) buckets + sample_count +
sample_sum"; bounds and sums are embedded as rationals (their `double`
values; the merge only compares bounds for equality and adds sums), counts
as naturals. -/

structure histogram_bucket where
  count : Nat
  upper_bound : Rat
deriving DecidableEq

structure histogram where
  buckets : List histogram_bucket
  sample_count : Nat
  sample_sum : Rat
deriving DecidableEq

/-- The bucket loop of `histogram::operator+=`: positions past the end of the
left operand are appended; a bound mismatch at a shared position throws
(`none`); otherwise counts add. -/
def merge_buckets : List histogram_bucket → List histogram_bucket →
    Option (List histogram_bucket)
  | hs, [] => some hs
  | [], cs => some cs
  | hb :: hs, cb :: cs =>
    if hb.upper_bound ≠ cb.upper_bound then none
    else (merge_buckets hs cs).map fun r => ⟨hb.count + cb.count, hb.upper_bound⟩ :: r

/-- `histogram::operator+=`: a right operand with `sample_count == 0` is a
no-op; otherwise merge buckets and add the sample count and sum. -/
def histogram_add (h c : histogram) : Option histogram :=
  if c.sample_count = 0 then some h
  else (merge_buckets h.buckets c.buckets).map fun bs =>
    ⟨bs, h.sample_count + c.sample_count, h.sample_sum + c.sample_sum⟩

/-! ## `relabel_config_action` (metrics.cc) -/

/-- String to `relabel_action` translation; every unrecognized string falls
through to `replace`. -/
def relabel_config_action (action : String) : relabel_action :=
  if action = "skip_when_empty" then .skip_when_empty
  else if action = "report_when_empty" then .report_when_empty
  else if action = "keep" then .keep
  else if action = "drop" then .drop
  else if action = "drop_label" then .drop_label
  else .replace

/-! ## C9: full-name sanitization -/

theorem sanitize_chars (l : List Char) :
    ((l.map fun c => if c = '-' then '_' else c).map fun c =>
        if c = ' ' then '_' else c).filter
        (fun c => ¬(c = '+' ∨ c = '(' ∨ c = ')')) =
      l.filterMap fun c =>
        if c = '-' ∨ c = ' ' then some '_'
        else if c = '+' ∨ c = '(' ∨ c = ')' then none
        else some c := by
  rw [← List.filterMap_eq_map fun c => if c = '-' then '_' else c,
    ← List.filterMap_eq_map fun c => if c = ' ' then '_' else c,
    ← List.filterMap_eq_filter fun c => decide ¬(c = '+' ∨ c = '(' ∨ c = ')'),
    List.filterMap_filterMap, List.filterMap_filterMap]
  refine List.filterMap_congr fun c _ => ?_
  by_cases h1 : c = '-'
  · subst h1; decide
  · by_cases h2 : c = ' '
    · subst h2; decide
    · by_cases h3 : c = '+'
      · subst h3; decide
      · by_cases h4 : c = '('
        · subst h4; decide
        · by_cases h5 : c = ')'
          · subst h5; decide
          · simp [Option.guard, h1, h2, h3, h4, h5]

/-- Claim C9: `full_name` produces the sanitized concatenation
`group ++ "_" ++ name`, where sanitization replaces every `-` and space by
`_` and removes every `+`, `(`, `)` (compared against the spec's description
`spec_sanitize`); in particular `full_name "cpu" "busy-ms" = "cpu_busy_ms"`
and `full_name "io" "ops check+()" = "io_ops_check"`. -/
theorem c9_full_name_sanitized :
    (∀ group name : String,
      full_name group name = spec_sanitize (group ++ "_" ++ name)) ∧
    full_name "cpu" "busy-ms" = "cpu_busy_ms" ∧
    full_name "io" "ops check+()" = "io_ops_check" := by
  refine ⟨fun group name => ?_, by decide, by decide⟩
  unfold full_name safe_name spec_sanitize
  exact congrArg String.mk (sanitize_chars _)

/-! ## C10: relabel action parsing -/

/-- Claim C10: `relabel_config_action` maps the five recognized action
strings to their actions and every other string (including the empty string)
to `replace`. -/
theorem c10_relabel_config_action_total :
    relabel_config_action "skip_when_empty" = .skip_when_empty ∧
    relabel_config_action "report_when_empty" = .report_when_empty ∧
    relabel_config_action "keep" = .keep ∧
    relabel_config_action "drop" = .drop ∧
    relabel_config_action "drop_label" = .drop_label ∧
    ∀ s : String,
      s ∉ ["skip_when_empty", "report_when_empty", "keep", "drop", "drop_label"] →
      relabel_config_action s = .replace := by
  refine ⟨by decide, by decide, by decide, by decide, by decide, fun s hs => ?_⟩
  simp only [List.mem_cons, List.not_mem_nil, or_false, not_or] at hs
  obtain ⟨h1, h2, h3, h4, h5⟩ := hs
  simp [relabel_config_action, h1, h2, h3, h4, h5]

theorem c10_relabel_config_action_total_witness :
    "" ∉ ["skip_when_empty", "report_when_empty", "keep", "drop", "drop_label"] ∧
    relabel_config_action "" = .replace :=
  ⟨by decide, c10_relabel_config_action_total.2.2.2.2.2 "" (by decide)⟩

/-! ## C5: histogram merge -/

theorem merge_buckets_map_eq (hb cb : List histogram_bucket)
    (h : hb.map (·.upper_bound) = cb.map (·.upper_bound)) :
    merge_buckets hb cb =
      some (List.zipWith (fun a b => ⟨a.count + b.count, a.upper_bound⟩) hb cb) := by
  induction hb generalizing cb with
  | nil =>
    cases cb with
    | nil => rfl
    | cons c cs => simp at h
  | cons a as ih =>
    cases cb with
    | nil => simp at h
    | cons c cs =>
      simp only [List.map_cons, List.cons.injEq] at h
      obtain ⟨h1, h2⟩ := h
      simp [merge_buckets, h1, ih cs h2]

theorem merge_buckets_none_iff (hb cb : List histogram_bucket) :
    merge_buckets hb cb = none ↔
      ∃ p ∈ hb.zip cb, p.1.upper_bound ≠ p.2.upper_bound := by
  induction hb generalizing cb with
  | nil => cases cb <;> simp [merge_buckets]
  | cons a as ih =>
    cases cb with
    | nil => simp [merge_buckets]
    | cons c cs =>
      by_cases h : a.upper_bound = c.upper_bound
      · simp [merge_buckets, h, Option.map_eq_none', ih]
      · constructor
        · intro _
          exact ⟨(a, c), by simp, h⟩
        · intro _
          simp [merge_buckets, h]

/-- Claim C5 counterexample: two histograms whose bucket upper-bound
sequences differ (`[10]` against `[10, 60]`) merge successfully (the extra
bucket is appended) instead of failing with a bucket mismatch. -/
theorem c5_counterexample :
    (⟨[⟨1, 10⟩], 1, 5⟩ : histogram).buckets.map (·.upper_bound) ≠
      (⟨[⟨2, 10⟩, ⟨3, 60⟩], 5, 7⟩ : histogram).buckets.map (·.upper_bound) ∧
    (⟨[⟨2, 10⟩, ⟨3, 60⟩], 5, 7⟩ : histogram).sample_count ≠ 0 ∧
    histogram_add ⟨[⟨1, 10⟩], 1, 5⟩ ⟨[⟨2, 10⟩, ⟨3, 60⟩], 5, 7⟩ =
      some ⟨[⟨3, 10⟩, ⟨3, 60⟩], 6, 5 + 7⟩ :=
  ⟨by decide, by decide, rfl⟩

/-- Claim C5 (amended): merging with a zero-sample right operand is a no-op;
for a right operand with samples, the merge fails exactly when the two bound
sequences disagree at some shared position (extra positions of the longer
operand are appended or kept, not rejected); and for identical bound
sequences the buckets add pairwise and `sample_count` / `sample_sum` add. -/
theorem c5_histogram_merge_characterization (h c : histogram) :
    (c.sample_count = 0 → histogram_add h c = some h) ∧
    (c.sample_count ≠ 0 →
      (histogram_add h c = none ↔
        ∃ p ∈ h.buckets.zip c.buckets, p.1.upper_bound ≠ p.2.upper_bound)) ∧
    (c.sample_count ≠ 0 →
      h.buckets.map (·.upper_bound) = c.buckets.map (·.upper_bound) →
      histogram_add h c = some
        ⟨List.zipWith (fun a b => ⟨a.count + b.count, a.upper_bound⟩) h.buckets c.buckets,
          h.sample_count + c.sample_count, h.sample_sum + c.sample_sum⟩) := by
  refine ⟨fun h0 => by simp [histogram_add, h0], fun h0 => ?_, fun h0 hb => ?_⟩
  · simp [histogram_add, h0, Option.map_eq_none', merge_buckets_none_iff]
  · simp [histogram_add, h0, merge_buckets_map_eq _ _ hb]

theorem c5_histogram_merge_characterization_witness :
    (⟨[⟨2, 10⟩, ⟨4, 50⟩], 5, 7⟩ : histogram).sample_count ≠ 0 ∧
    (⟨[⟨1, 10⟩, ⟨1, 50⟩], 1, 5⟩ : histogram).buckets.map (·.upper_bound) =
      (⟨[⟨2, 10⟩, ⟨4, 50⟩], 5, 7⟩ : histogram).buckets.map (·.upper_bound) ∧
    histogram_add ⟨[⟨1, 10⟩, ⟨1, 50⟩], 1, 5⟩ ⟨[⟨2, 10⟩, ⟨4, 50⟩], 5, 7⟩ =
      some ⟨List.zipWith
          (fun a b : histogram_bucket =>
            (⟨a.count + b.count, a.upper_bound⟩ : histogram_bucket))
          [⟨1, 10⟩, ⟨1, 50⟩] [⟨2, 10⟩, ⟨4, 50⟩], 1 + 5, 5 + 7⟩ :=
  ⟨by decide, by decide,
    (c5_histogram_merge_characterization ⟨[⟨1, 10⟩, ⟨1, 50⟩], 1, 5⟩
      ⟨[⟨2, 10⟩, ⟨4, 50⟩], 5, 7⟩).2.2 (by decide) (by decide)⟩

/-! ## C6: snapshot rebuild discipline -/

/-- Claim C6 counterexample: when the rebuild is interrupted at the very
first step, the cache no longer holds the previously valid snapshot — it was
already replaced (by the empty snapshot) before the rebuild succeeded, so
the previous cache is not "replaced only on success". -/
theorem c6_counterexample :
    (update_metrics_fail_at
        { empty_impl with
            metadata := [(⟨.gauge, "", "", "g_n", []⟩, [])]
            dirty := true } 0).metadata ≠
      ({ empty_impl with
          metadata := [(⟨.gauge, "", "", "g_n", []⟩, [])]
          dirty := true } : impl_state).metadata := by decide

/-- Claim C6 (amended): when the registry is dirty the rebuild first resets
the cached snapshot to a fresh empty snapshot, builds the new snapshot into
a separate fresh structure and installs it only at the end; a failure
partway therefore leaves the cache holding the empty snapshot (never a
partially built or corrupted one) with the dirty flag still set and the
value map untouched, while a completed rebuild installs the fully built
snapshot and clears the dirty flag. -/
theorem c6_rebuild_cache_discipline (s : impl_state) (k : Nat) (h : s.dirty = true) :
    (update_metrics_fail_at s k).metadata = [] ∧
    (update_metrics_fail_at s k).dirty = true ∧
    (update_metrics_fail_at s k).value_map = s.value_map ∧
    (update_metrics_if_needed s).metadata =
      (s.value_map.foldl build_step
        ([], resize_cm s.current_metrics s.value_map.length, 0)).1 ∧
    (update_metrics_if_needed s).dirty = false := by
  refine ⟨?_, ?_, ?_, ?_, ?_⟩ <;>
    simp [update_metrics_fail_at, update_metrics_if_needed, h]

theorem c6_rebuild_cache_discipline_witness :
    ({ empty_impl with
        metadata := [(⟨.gauge, "", "", "g_n", []⟩, [])]
        dirty := true } : impl_state).dirty = true ∧
    ((update_metrics_fail_at
        { empty_impl with
            metadata := [(⟨.gauge, "", "", "g_n", []⟩, [])]
            dirty := true } 1).metadata = [] ∧
      (update_metrics_fail_at
        { empty_impl with
            metadata := [(⟨.gauge, "", "", "g_n", []⟩, [])]
            dirty := true } 1).dirty = true ∧
      (update_metrics_fail_at
        { empty_impl with
            metadata := [(⟨.gauge, "", "", "g_n", []⟩, [])]
            dirty := true } 1).value_map =
        ({ empty_impl with
            metadata := [(⟨.gauge, "", "", "g_n", []⟩, [])]
            dirty := true } : impl_state).value_map ∧
      (update_metrics_if_needed
        { empty_impl with
            metadata := [(⟨.gauge, "", "", "g_n", []⟩, [])]
            dirty := true }).metadata =
        (({ empty_impl with
            metadata := [(⟨.gauge, "", "", "g_n", []⟩, [])]
            dirty := true } : impl_state).value_map.foldl build_step
          ([], resize_cm ({ empty_impl with
              metadata := [(⟨.gauge, "", "", "g_n", []⟩, [])]
              dirty := true } : impl_state).current_metrics
            ({ empty_impl with
              metadata := [(⟨.gauge, "", "", "g_n", []⟩, [])]
              dirty := true } : impl_state).value_map.length, 0)).1 ∧
      (update_metrics_if_needed
        { empty_impl with
            metadata := [(⟨.gauge, "", "", "g_n", []⟩, [])]
            dirty := true }).dirty = false) :=
  ⟨rfl, c6_rebuild_cache_discipline _ 1 rfl⟩

/-! ## C1: scoped handle teardown against relabeling -/

/-- A relabel rule whose regex matches everything and whose replacement
expands to the literal `"v"`: it sets label `t` to `v` on every metric. -/
def c1_rule : relabel_config := ⟨[], ";", fun _ => some "v", .replace, "t"⟩

/-- A directory whose registry 0 already has the `c1_rule` relabel rule
active (as left behind by an earlier `set_relabel_configs`). -/
def c1_dir0 : directory := [(0, { empty_impl with relabel_configs := [c1_rule] })]

/-- Claim C1 (code bug): with a relabel rule active, registering one metric
through a scoped handle stores it under its post-relabel label set
`{t -> v}` while the handle records the pre-relabel identity (empty label
set); destroying the handle then fails to find the metric, and the series
it registered survives the handle: the registry still holds the full family
`g_n` with the one relabeled series.  The second conjunct checks the
registration succeeded and recorded exactly the pre-relabel identity. -/
theorem c1_scoped_handle_leaves_relabeled_series :
    ((metric_groups_add_metric 5 c1_dir0 ⟨0, []⟩ "g" "n" [] ⟨.gauge, ""⟩ 7 "d"
        true false []).bind fun r =>
      (metric_groups_destroy 5 r.1 r.2.1).map fun d2 =>
        (alookup (get_local_impl d2 0).value_map "g_n").map fun fam =>
          fam.instances.map fun q => (q.1, q.2.info.labels, q.2.info.original)) =
      some (some [([("t", "v")], [("t", "v")], [])]) ∧
    (metric_groups_add_metric 5 c1_dir0 ⟨0, []⟩ "g" "n" [] ⟨.gauge, ""⟩ 7 "d"
        true false []).map (fun r => (r.2.1.registration, r.2.2.isNone)) =
      some ([⟨"g", "n", []⟩], true) := by
  exact ⟨rfl, rfl⟩

/-! ## C8: removal of absent identities and replication mirroring -/

/-- A directory where registry 0 replicates family `g_n` to registry 1,
registry 0 does not hold the identity `(g_n, {})`, but registry 1 does. -/
def c8_dir : directory :=
  [(0, { empty_impl with families_to_replicate := [("g_n", 1)] }),
   (1, { empty_impl with
      value_map := [("g_n", ⟨[([], ⟨⟨"g", "n", [], [], true, false⟩, 3⟩)],
        ⟨.gauge, "", "", "g_n", []⟩⟩)] })]

/-- Claim C8 counterexample: the identity is absent from registry 0, yet
`remove_registration` still mirrors the removal to the replication
destination first, and the destination registry 1 — which did hold the
identity — loses it: removal of an absent identity does not leave the
replication destination registries unchanged. -/
theorem c8_counterexample :
    alookup (get_local_impl c8_dir 0).value_map "g_n" = none ∧
    (get_local_impl c8_dir 1).value_map ≠ [] ∧
    (remove_registration 3 c8_dir 0 ⟨"g", "n", []⟩).map
      (fun d => (get_local_impl d 1).value_map) = some [] := by
  exact ⟨by decide, by decide, by decide⟩

/-- Claim C8 (amended): removal never raises an error.  Locally: an absent
family is a strict no-op; a present family with the label set absent leaves
the value map unchanged but still invalidates the cache; a present label
set is erased, the family is dropped when it becomes empty, and the cache
is invalidated.  At directory level the removal is always forwarded to the
matching replication destinations first (whether or not the identity exists
at the source), then applied locally. -/
theorem c8_remove_registration_characterization (fuel : Nat) (dir : directory)
    (h : Int) (id : metric_id) (s : impl_state) :
    (alookup s.value_map id.fullName = none → remove_registration_local s id = s) ∧
    (∀ fam, alookup s.value_map id.fullName = some fam →
      fam.instances.isEmpty = false →
      alookup fam.instances id.labels = none →
      remove_registration_local s id = { s with dirty := true }) ∧
    (∀ fam, alookup s.value_map id.fullName = some fam →
      remove_registration_local s id =
        { s with
            value_map :=
              if (aerase fam.instances id.labels).isEmpty then
                aerase s.value_map id.fullName
              else
                aupdate s.value_map id.fullName
                  { fam with instances := aerase fam.instances id.labels }
            dirty := true }) ∧
    ((get_local_impl dir h).families_to_replicate.filter
        (fun p => p.1 = id.fullName) = [] →
      remove_registration (fuel + 1) dir h id =
        some (set_local_impl dir h
          (remove_registration_local (get_local_impl dir h) id))) ∧
    (∀ F dest,
      (get_local_impl dir h).families_to_replicate.filter
        (fun p => p.1 = id.fullName) = [(F, dest)] →
      (get_local_impl dir dest).families_to_replicate.filter
        (fun p => p.1 = id.fullName) = [] →
      remove_registration (fuel + 2) dir h id =
        some (set_local_impl
          (set_local_impl dir dest
            (remove_registration_local (get_local_impl dir dest) id)) h
          (remove_registration_local
            (get_local_impl
              (set_local_impl dir dest
                (remove_registration_local (get_local_impl dir dest) id)) h) id))) := by
  refine ⟨fun h0 => ?_, fun fam hf hne hl => ?_, fun fam hf => ?_, fun hfil => ?_,
    fun F dest hfil hdest => ?_⟩
  · simp [remove_registration_local, h0]
  · simp only [remove_registration_local, hf, aerase_of_alookup_none _ _ hl]
    have hupd : aupdate s.value_map id.fullName fam = s.value_map :=
      aupdate_of_alookup_self _ _ _ hf
    simp [hne, hupd]
  · simp only [remove_registration_local, hf]
  · simp only [remove_registration, hfil, remove_replicas]
  · simp only [remove_registration, hfil, remove_replicas, hdest]

theorem c8_remove_registration_characterization_witness :
    alookup (get_local_impl c8_dir 1).value_map
        (⟨"x", "y", []⟩ : metric_id).fullName = none ∧
    remove_registration_local (get_local_impl c8_dir 1) ⟨"x", "y", []⟩ =
      get_local_impl c8_dir 1 ∧
    ((get_local_impl c8_dir 1).families_to_replicate.filter
      (fun p => p.1 = (⟨"x", "y", []⟩ : metric_id).fullName) = []) ∧
    remove_registration 1 c8_dir 1 ⟨"x", "y", []⟩ =
      some (set_local_impl c8_dir 1
        (remove_registration_local (get_local_impl c8_dir 1) ⟨"x", "y", []⟩)) :=
  ⟨by decide,
    (c8_remove_registration_characterization 0 c8_dir 1 ⟨"x", "y", []⟩
      (get_local_impl c8_dir 1)).1 (by decide),
    by decide,
    (c8_remove_registration_characterization 0 c8_dir 1 ⟨"x", "y", []⟩
      (get_local_impl c8_dir 1)).2.2.2.1 (by decide)⟩

/-! ## C4: registration errors and atomicity -/

/-- A directory where registry 0 replicates family `g_n` to registry 1 and
registry 1 already holds the identity that the replication will produce. -/
def c4_dir : directory :=
  [(0, { empty_impl with families_to_replicate := [("g_n", 1)] }),
   (1, { empty_impl with
      value_map := [("g_n", ⟨[([], ⟨⟨"g", "n", [], [], true, false⟩, 3⟩)],
        ⟨.gauge, "", "", "g_n", []⟩⟩)] })]

/-- Claim C4 counterexample: the (full name, post-relabel label set) pair is
absent from registry 0, yet its `add_registration` raises
`double_registration` (surfaced from the replication destination), and
despite the error registry 0's state has changed — the new metric stays
inserted.  This refutes both "raises DuplicateRegistration exactly when the
pair already exists in the registry" and "in either failure case the
registry state is unchanged". -/
theorem c4_counterexample :
    alookup (get_local_impl c4_dir 0).value_map "g_n" = none ∧
    (add_registration 3 c4_dir 0 ⟨"g", "n", []⟩ ⟨.gauge, ""⟩ 7 "d" true false []).map
      (fun r => (r.2,
        (alookup (get_local_impl r.1 0).value_map "g_n").map fun fam =>
          fam.instances.length)) =
      some (some (reg_error.double_registration "registering metrics twice for metrics: g_n"),
        some 1) := by
  exact ⟨by decide, by decide⟩

/-- Claim C4 (amended): the local admission checks of `add_registration` are
exact and atomic — `double_registration` is raised iff the (full name,
post-relabel label set) pair exists locally; the type-mismatch error is
raised iff the family exists, the pair does not, and the family's base type
differs; on a local error the state is unchanged; on success the metric is
inserted under its post-relabel label set with the cache invalidated, the
family being created with the given metadata when absent.  (Replication can
additionally surface a destination-side error after the local insertion —
see the counterexample.) -/
theorem c4_add_registration_local_characterization (s : impl_state)
    (id : metric_id) (ty : MetricType) (f : Nat) (d : String) (en sk : Bool)
    (agg : List String) :
    ((add_registration_local s id ty f d en sk agg).2 =
        some (.double_registration
          ("registering metrics twice for metrics: " ++ id.fullName)) ↔
      ∃ fam, alookup s.value_map id.fullName = some fam ∧
        (alookup fam.instances (post_relabel_info s id en sk).labels).isSome) ∧
    ((add_registration_local s id ty f d en sk agg).2 =
        some (.type_mismatch
          ("registering metrics " ++ id.fullName ++ " registered with different type.")) ↔
      ∃ fam, alookup s.value_map id.fullName = some fam ∧
        alookup fam.instances (post_relabel_info s id en sk).labels = none ∧
        fam.finfo.ftype ≠ ty.base_type) ∧
    (∀ e, (add_registration_local s id ty f d en sk agg).2 = some e →
      (add_registration_local s id ty f d en sk agg).1 = s) ∧
    ((add_registration_local s id ty f d en sk agg).2 = none →
      ∃ fam', alookup (add_registration_local s id ty f d en sk agg).1.value_map
          id.fullName = some fam' ∧
        alookup fam'.instances (post_relabel_info s id en sk).labels =
          some ⟨post_relabel_info s id en sk, f⟩ ∧
        (add_registration_local s id ty f d en sk agg).1.dirty = true) ∧
    (alookup s.value_map id.fullName = none →
      (add_registration_local s id ty f d en sk agg).2 = none ∧
      alookup (add_registration_local s id ty f d en sk agg).1.value_map
          id.fullName =
        some ⟨[((post_relabel_info s id en sk).labels,
            ⟨post_relabel_info s id en sk, f⟩)],
          ⟨ty.base_type, ty.type_name, d, id.fullName, agg⟩⟩) := by
  rcases hvm : alookup s.value_map id.fullName with _ | fam
  · have hr : add_registration_local s id ty f d en sk agg =
        ({ s with
            value_map := ainsert strLt s.value_map id.fullName
              ⟨[((post_relabel_info s id en sk).labels,
                  ⟨post_relabel_info s id en sk, f⟩)],
                ⟨ty.base_type, ty.type_name, d, id.fullName, agg⟩⟩
            dirty := true }, none) := by
      simp only [add_registration_local, hvm]
    refine ⟨?_, ?_, ?_, ?_, ?_⟩
    · rw [hr]
      constructor
      · intro hc; exact Option.noConfusion hc
      · rintro ⟨fam', hfam', -⟩
        exact Option.noConfusion hfam'
    · rw [hr]
      constructor
      · intro hc; exact Option.noConfusion hc
      · rintro ⟨fam', hfam', -⟩
        exact Option.noConfusion hfam'
    · intro e he; rw [hr] at he; exact Option.noConfusion he
    · intro _
      rw [hr]
      exact ⟨_, alookup_ainsert_self _ _ _ _, by simp [alookup], rfl⟩
    · intro _
      rw [hr]
      exact ⟨rfl, alookup_ainsert_self _ _ _ _⟩
  · by_cases hdup :
      (alookup fam.instances (post_relabel_info s id en sk).labels).isSome = true
    · have hr : add_registration_local s id ty f d en sk agg =
          (s, some (.double_registration
            ("registering metrics twice for metrics: " ++ id.fullName))) := by
        simp only [add_registration_local, hvm]
        rw [if_pos hdup]
      refine ⟨?_, ?_, ?_, ?_, ?_⟩
      · rw [hr]
        exact iff_of_true rfl ⟨fam, rfl, hdup⟩
      · rw [hr]
        constructor
        · intro hc
          cases hc
        · rintro ⟨fam', hfam', hnone, -⟩
          cases hfam'
          rw [hnone] at hdup; simp at hdup
      · intro e he; rw [hr]
      · intro hnone; rw [hr] at hnone; exact Option.noConfusion hnone
      · intro habs; exact Option.noConfusion habs
    · have hnotdup : alookup fam.instances (post_relabel_info s id en sk).labels = none := by
        cases hioc : alookup fam.instances (post_relabel_info s id en sk).labels
        · rfl
        · exact absurd (by rw [hioc]; rfl) hdup
      by_cases hty : fam.finfo.ftype = ty.base_type
      · have hr : add_registration_local s id ty f d en sk agg =
            ({ s with
                value_map := aupdate s.value_map id.fullName { fam with instances := ainsert labelsLt fam.instances (post_relabel_info s id en sk).labels ⟨post_relabel_info s id en sk, f⟩ }
                label_names := (post_relabel_info s id en sk).labels.foldl (fun acc p => strSetInsert acc p.1) s.label_names
                dirty := true }, none) := by
          simp only [add_registration_local, hvm]
          rw [if_neg hdup, if_neg (by simp [hty])]
        refine ⟨?_, ?_, ?_, ?_, ?_⟩
        · rw [hr]
          constructor
          · intro hc; exact Option.noConfusion hc
          · rintro ⟨fam', hfam', hsome⟩
            cases hfam'
            rw [hnotdup] at hsome; simp at hsome
        · rw [hr]
          constructor
          · intro hc; exact Option.noConfusion hc
          · rintro ⟨fam', hfam', -, hne⟩
            cases hfam'
            exact absurd hty hne
        · intro e he; rw [hr] at he; exact Option.noConfusion he
        · intro _
          rw [hr]
          refine ⟨{ fam with instances := ainsert labelsLt fam.instances (post_relabel_info s id en sk).labels ⟨post_relabel_info s id en sk, f⟩ }, ?_, ?_, rfl⟩
          · exact alookup_aupdate_self _ _ _ (by rw [hvm]; rfl)
          · exact alookup_ainsert_self _ _ _ _
        · intro habs; exact Option.noConfusion habs
      · have hr : add_registration_local s id ty f d en sk agg =
            (s, some (.type_mismatch
              ("registering metrics " ++ id.fullName ++
                " registered with different type."))) := by
          simp only [add_registration_local, hvm]
          rw [if_neg hdup, if_pos (by simp [hty])]
        refine ⟨?_, ?_, ?_, ?_, ?_⟩
        · rw [hr]
          constructor
          · intro hc; cases hc
          · rintro ⟨fam', hfam', hsome⟩
            cases hfam'
            rw [hnotdup] at hsome; simp at hsome
        · rw [hr]
          exact iff_of_true rfl ⟨fam, rfl, hnotdup, hty⟩
        · intro e he; rw [hr]
        · intro hnone; rw [hr] at hnone; exact Option.noConfusion hnone
        · intro habs; exact Option.noConfusion habs

theorem c4_add_registration_local_characterization_witness :
    (add_registration_local
        { empty_impl with
          value_map := [("g_n", ⟨[([("a", "1")], ⟨⟨"g", "n", [("a", "1")], [("a", "1")], true, false⟩, 3⟩)],
            ⟨.gauge, "", "", "g_n", []⟩⟩)] }
        ⟨"g", "n", []⟩ ⟨.counter, ""⟩ 7 "d" true false []).2 =
      some (reg_error.type_mismatch "registering metrics g_n registered with different type.") ∧
    (add_registration_local
        { empty_impl with
          value_map := [("g_n", ⟨[([("a", "1")], ⟨⟨"g", "n", [("a", "1")], [("a", "1")], true, false⟩, 3⟩)],
            ⟨.gauge, "", "", "g_n", []⟩⟩)] }
        ⟨"g", "n", []⟩ ⟨.counter, ""⟩ 7 "d" true false []).1 =
      { empty_impl with
        value_map := [("g_n", ⟨[([("a", "1")], ⟨⟨"g", "n", [("a", "1")], [("a", "1")], true, false⟩, 3⟩)],
          ⟨.gauge, "", "", "g_n", []⟩⟩)] } :=
  ⟨by decide,
    (c4_add_registration_local_characterization
      { empty_impl with
        value_map := [("g_n", ⟨[([("a", "1")], ⟨⟨"g", "n", [("a", "1")], [("a", "1")], true, false⟩, 3⟩)],
          ⟨.gauge, "", "", "g_n", []⟩⟩)] }
      ⟨"g", "n", []⟩ ⟨.counter, ""⟩ 7 "d" true false []).2.2.1
      (reg_error.type_mismatch "registering metrics g_n registered with different type.")
      (by decide)⟩

/-! ## C3: collision resolution during `set_relabel_configs` -/

/-- Claim C3: in a family holding exactly metrics `A` (stable under
re-evaluation at key `kA`) and `B` (whose re-evaluated label set collides
with `kA`), `set_relabel_configs` keeps both metrics present, leaves the
stable metric's labels untouched at `kA`, re-inserts the re-labeled metric
under `kA` plus the synthetic `err -> <unique id>` label (the only one of
the two carrying `err`), returns collision count exactly 1, and never
throws (the embedding of the call is a total function). -/
theorem c3_relabel_collision_resolution
    (F : String) (fi : metric_family_info) (kA kB : Labels)
    (A B : registered_metric) (R : List relabel_config) (s : impl_state)
    (hvm : s.value_map = [(F, ⟨[(kA, A), (kB, B)], fi⟩)])
    (hA : (apply_rules R (reset_info A.info)).labels = kA)
    (hB : (apply_rules R (reset_info B.info)).labels = kA)
    (hne : kB ≠ kA)
    (herr : alookup kA "err" = none) :
    (set_relabel_configs s R).2 = 1 ∧
    ∃ fam',
      alookup (set_relabel_configs s R).1.value_map F = some fam' ∧
      fam'.instances.length = 2 ∧
      alookup fam'.instances kA =
        some ⟨apply_rules R (reset_info A.info), A.fn⟩ ∧
      alookup fam'.instances
          (ainsert strLt kA "err" (get_unique_id s.uid_counter)) =
        some ⟨{ apply_rules R (reset_info B.info) with
            labels := ainsert strLt kA "err" (get_unique_id s.uid_counter) }, B.fn⟩ ∧
      alookup kA "err" = none ∧
      alookup (ainsert strLt kA "err" (get_unique_id s.uid_counter)) "err" =
        some (get_unique_id s.uid_counter) := by
  have hkerr : ainsert strLt kA "err" (get_unique_id s.uid_counter) ≠ kA := by
    intro hcontr
    have hself := alookup_ainsert_self strLt kA "err" (get_unique_id s.uid_counter)
    rw [hcontr, herr] at hself
    exact Option.noConfusion hself
  have key : (set_relabel_configs s R).2 = 1 ∧
      alookup (set_relabel_configs s R).1.value_map F =
        some ⟨ainsert labelsLt
            [(kA, ⟨apply_rules R (reset_info A.info), A.fn⟩)]
            (ainsert strLt kA "err" (get_unique_id s.uid_counter))
            ⟨{ apply_rules R (reset_info B.info) with
                labels := ainsert strLt kA "err" (get_unique_id s.uid_counter) }, B.fn⟩,
          fi⟩ := by
    refine ⟨?_, ?_⟩
    · simp [set_relabel_configs, hvm, set_relabel_go, relabel_phase1,
        relabel_phase2, hA, hB, hne, alookup]
    · simp only [set_relabel_configs]
      simp only [hvm, set_relabel_go]
      simp only [relabel_phase1, relabel_phase2, hA, hB, hne, alookup]
      simp [hne]
  refine ⟨key.1, _, key.2, ?_, ?_, ?_, herr, ?_⟩
  · rw [length_ainsert_of_alookup_none]
    · rfl
    · simp only [alookup]
      rw [if_neg fun hcontr => hkerr hcontr.symm]
  · rw [alookup_ainsert_ne _ _ _ _ _ (Ne.symm hkerr)]
    simp [alookup]
  · exact alookup_ainsert_self _ _ _ _
  · exact alookup_ainsert_self _ _ _ _

/-- A relabel rule matching everything, setting label `t` to `v`: used to
make the two concrete metrics of the C3 witness collide. -/
def c3w_rule : relabel_config := ⟨[], ";", fun _ => some "v", .replace, "t"⟩

/-- Concrete registry for the C3 witness: one family holding a metric `A`
whose labels already are `{t -> v}` and a metric `B` with empty labels. -/
def c3w_s : impl_state :=
  { empty_impl with
    value_map := [("g_n",
      ⟨[([("t", "v")], ⟨⟨"g", "n", [("t", "v")], [("t", "v")], true, false⟩, 1⟩),
        ([], ⟨⟨"g", "n", [], [], true, false⟩, 2⟩)],
        ⟨.gauge, "", "", "g_n", []⟩⟩)] }

theorem c3_relabel_collision_resolution_witness :
    c3w_s.value_map = [("g_n",
      ⟨[([("t", "v")], ⟨⟨"g", "n", [("t", "v")], [("t", "v")], true, false⟩, 1⟩),
        ([], ⟨⟨"g", "n", [], [], true, false⟩, 2⟩)],
        ⟨.gauge, "", "", "g_n", []⟩⟩)] ∧
    (apply_rules [c3w_rule]
      (reset_info ⟨"g", "n", [("t", "v")], [("t", "v")], true, false⟩)).labels =
      [("t", "v")] ∧
    (apply_rules [c3w_rule] (reset_info ⟨"g", "n", [], [], true, false⟩)).labels =
      [("t", "v")] ∧
    ([] : Labels) ≠ [("t", "v")] ∧
    alookup ([("t", "v")] : Labels) "err" = none ∧
    ((set_relabel_configs c3w_s [c3w_rule]).2 = 1 ∧
      ∃ fam',
        alookup (set_relabel_configs c3w_s [c3w_rule]).1.value_map "g_n" = some fam' ∧
        fam'.instances.length = 2 ∧
        alookup fam'.instances [("t", "v")] =
          some ⟨apply_rules [c3w_rule]
            (reset_info ⟨"g", "n", [("t", "v")], [("t", "v")], true, false⟩), 1⟩ ∧
        alookup fam'.instances
            (ainsert strLt [("t", "v")] "err" (get_unique_id c3w_s.uid_counter)) =
          some ⟨{ apply_rules [c3w_rule] (reset_info ⟨"g", "n", [], [], true, false⟩) with
              labels := ainsert strLt [("t", "v")] "err"
                (get_unique_id c3w_s.uid_counter) }, 2⟩ ∧
        alookup ([("t", "v")] : Labels) "err" = none ∧
        alookup (ainsert strLt [("t", "v")] "err" (get_unique_id c3w_s.uid_counter))
            "err" = some (get_unique_id c3w_s.uid_counter)) :=
  ⟨rfl, by decide, by decide, by decide, by decide,
    c3_relabel_collision_resolution "g_n" ⟨.gauge, "", "", "g_n", []⟩
      [("t", "v")] []
      ⟨⟨"g", "n", [("t", "v")], [("t", "v")], true, false⟩, 1⟩
      ⟨⟨"g", "n", [], [], true, false⟩, 2⟩
      [c3w_rule] c3w_s rfl (by decide) (by decide) (by decide) (by decide)⟩

/-! ## Determinism of the relabel engine

`apply_relabeling` never touches a metric's group, name or original labels,
and the label set it produces depends only on the current label set and the
identity (not on the enabled/skip flags).  These facts drive the idempotence
analysis of `set_relabel_configs`. -/

theorem apply_relabeling_fields (rc : relabel_config) (i : metric_info) :
    ((apply_relabeling rc i).2).group = i.group ∧
    ((apply_relabeling rc i).2).name = i.name ∧
    ((apply_relabeling rc i).2).original = i.original := by
  rcases hbs : build_source i.labels rc.separator i.fullName rc.source_labels true ""
    with _ | str
  · simp [apply_relabeling, hbs]
  · rcases hsr : rc.search str with _ | fmt
    · simp [apply_relabeling, hbs, hsr]
    · rcases hac : rc.action <;>
        simp [apply_relabeling, hbs, hsr, hac]
      by_cases ht : rc.target_label = ""
      · simp [ht]
      · simp [ht]

theorem apply_relabeling_labels_congr (rc : relabel_config) (i j : metric_info)
    (hl : i.labels = j.labels) (hg : i.group = j.group) (hn : i.name = j.name) :
    ((apply_relabeling rc i).2).labels = ((apply_relabeling rc j).2).labels := by
  obtain ⟨ig, inm, il, io, ie, isk⟩ := i
  obtain ⟨jg, jnm, jl, jo, je, jsk⟩ := j
  simp only at hl hg hn
  subst hl; subst hg; subst hn
  rcases hbs : build_source il rc.separator
      ((⟨ig, inm, il, io, ie, isk⟩ : metric_info).fullName) rc.source_labels true ""
    with _ | str
  · simp [apply_relabeling, metric_info.fullName] at hbs ⊢
    simp [hbs]
  · simp only [apply_relabeling, metric_info.fullName] at hbs ⊢
    simp only [hbs]
    rcases hsr : rc.search str with _ | fmt
    · simp [hsr]
    · simp only [hsr]
      rcases hac : rc.action <;> simp [hac]
      by_cases ht : rc.target_label = ""
      · simp [ht]
      · simp [ht]

theorem apply_rules_fields (R : List relabel_config) (i : metric_info) :
    (apply_rules R i).group = i.group ∧
    (apply_rules R i).name = i.name ∧
    (apply_rules R i).original = i.original := by
  induction R generalizing i with
  | nil => exact ⟨rfl, rfl, rfl⟩
  | cons rc t ih =>
    obtain ⟨hg, hn, ho⟩ := apply_relabeling_fields rc i
    obtain ⟨ihg, ihn, iho⟩ := ih (apply_relabeling rc i).2
    exact ⟨ihg.trans hg, ihn.trans hn, iho.trans ho⟩

theorem apply_rules_labels_congr (R : List relabel_config) (i j : metric_info)
    (hl : i.labels = j.labels) (hg : i.group = j.group) (hn : i.name = j.name) :
    (apply_rules R i).labels = (apply_rules R j).labels := by
  induction R generalizing i j with
  | nil => exact hl
  | cons rc t ih =>
    obtain ⟨hgi, hni, -⟩ := apply_relabeling_fields rc i
    obtain ⟨hgj, hnj, -⟩ := apply_relabeling_fields rc j
    exact ih _ _ (apply_relabeling_labels_congr rc i j hl hg hn)
      (hgi.trans (hg.trans hgj.symm)) (hni.trans (hn.trans hnj.symm))

/-- Re-evaluating from the original labels is stable: running the rule list
once more on the reset of an already re-evaluated metric yields the same
label set. -/
theorem apply_rules_reset_stable (R : List relabel_config) (i : metric_info) :
    (apply_rules R (reset_info (apply_rules R (reset_info i)))).labels =
      (apply_rules R (reset_info i)).labels := by
  obtain ⟨hg, hn, ho⟩ := apply_rules_fields R (reset_info i)
  apply apply_rules_labels_congr
  · simp only [reset_info] at ho ⊢
    simpa using ho
  · simpa [reset_info] using hg
  · simpa [reset_info] using hn

/-! ## Structure of the `set_relabel_configs` passes -/

theorem relabel_phase1_kept_mem (R : List relabel_config)
    (l : List (Labels × registered_metric)) (q : Labels × registered_metric)
    (hq : q ∈ (relabel_phase1 R l).kept) :
    ∃ p ∈ l, q = (p.1, ⟨apply_rules R (reset_info p.2.info), p.2.fn⟩) ∧
      p.1 = (apply_rules R (reset_info p.2.info)).labels := by
  induction l with
  | nil => simp [relabel_phase1] at hq
  | cons p t ih =>
    by_cases hc : p.1 = (apply_rules R (reset_info p.2.info)).labels
    · simp only [relabel_phase1, hc, if_pos] at hq
      rcases List.mem_cons.mp hq with h' | h'
      · refine ⟨p, List.mem_cons_self _ _, ?_, hc⟩
        rw [h', hc]
      · obtain ⟨p', hp', hq', hk'⟩ := ih h'
        exact ⟨p', List.mem_cons_of_mem _ hp', hq', hk'⟩
    · simp only [relabel_phase1] at hq
      rw [if_neg hc] at hq
      obtain ⟨p', hp', hq', hk'⟩ := ih hq
      exact ⟨p', List.mem_cons_of_mem _ hp', hq', hk'⟩

theorem relabel_phase1_rms_mem (R : List relabel_config)
    (l : List (Labels × registered_metric)) (rm : registered_metric)
    (hq : rm ∈ (relabel_phase1 R l).rms) :
    ∃ p ∈ l, rm = ⟨apply_rules R (reset_info p.2.info), p.2.fn⟩ ∧
      p.1 ≠ (apply_rules R (reset_info p.2.info)).labels := by
  induction l with
  | nil => simp [relabel_phase1] at hq
  | cons p t ih =>
    by_cases hc : p.1 = (apply_rules R (reset_info p.2.info)).labels
    · simp only [relabel_phase1, hc, if_pos] at hq
      obtain ⟨p', hp', hq', hk'⟩ := ih hq
      exact ⟨p', List.mem_cons_of_mem _ hp', hq', hk'⟩
    · simp only [relabel_phase1] at hq
      rw [if_neg hc] at hq
      rcases List.mem_cons.mp hq with h' | h'
      · exact ⟨p, List.mem_cons_self _ _, h', hc⟩
      · obtain ⟨p', hp', hq', hk'⟩ := ih h'
        exact ⟨p', List.mem_cons_of_mem _ hp', hq', hk'⟩

theorem relabel_phase1_all_kept (R : List relabel_config)
    (l : List (Labels × registered_metric))
    (h : ∀ p ∈ l, p.1 = (apply_rules R (reset_info p.2.info)).labels) :
    (relabel_phase1 R l).kept =
      l.map (fun p => (p.1, ⟨apply_rules R (reset_info p.2.info), p.2.fn⟩)) ∧
    (relabel_phase1 R l).rms = [] := by
  induction l with
  | nil => exact ⟨rfl, rfl⟩
  | cons p t ih =>
    have hp := h p (List.mem_cons_self _ _)
    obtain ⟨ihk, ihr⟩ := ih fun q hq => h q (List.mem_cons_of_mem _ hq)
    simp only [relabel_phase1, hp, if_pos, List.map_cons]
    exact ⟨by rw [ihk], ihr⟩

theorem relabel_phase2_conflicts_le
    (rms : List registered_metric) (fam : List (Labels × registered_metric))
    (c n : Nat) : c ≤ (relabel_phase2 rms fam c n).conflicts := by
  induction rms generalizing fam c n with
  | nil => exact Nat.le_refl _
  | cons rm t ih =>
    by_cases hcol : (alookup fam rm.info.labels).isSome = true
    · simp only [relabel_phase2, hcol, if_pos]
      exact Nat.le_trans (Nat.le_succ _) (ih _ _ _)
    · simp only [relabel_phase2]
      rw [if_neg hcol]
      exact ih _ _ _

theorem relabel_phase2_cons_collision_conflicts (rm : registered_metric)
    (t : List registered_metric) (fam : List (Labels × registered_metric))
    (c n : Nat) (hcol : (alookup fam rm.info.labels).isSome = true) :
    c + 1 ≤ (relabel_phase2 (rm :: t) fam c n).conflicts := by
  simp only [relabel_phase2, hcol, if_pos]
  exact relabel_phase2_conflicts_le _ _ _ _

theorem relabel_phase2_mem_of_no_conflict
    (rms : List registered_metric) (fam : List (Labels × registered_metric))
    (c n : Nat) (h : (relabel_phase2 rms fam c n).conflicts = c)
    (q : Labels × registered_metric)
    (hq : q ∈ (relabel_phase2 rms fam c n).fam) :
    q ∈ fam ∨ ∃ rm ∈ rms, q = (rm.info.labels, rm) := by
  induction rms generalizing fam c n with
  | nil => exact Or.inl hq
  | cons rm t ih =>
    by_cases hcol : (alookup fam rm.info.labels).isSome = true
    · exfalso
      have hle := relabel_phase2_cons_collision_conflicts rm t fam c n hcol
      omega
    · simp only [relabel_phase2] at h hq
      rw [if_neg hcol] at h hq
      rcases ih _ _ _ h hq with h' | ⟨rm', hrm', hq'⟩
      · rcases mem_ainsert _ _ _ _ _ h' with h'' | h''
        · exact Or.inr ⟨rm, List.mem_cons_self _ _, h''⟩
        · exact Or.inl h''
      · exact Or.inr ⟨rm', List.mem_cons_of_mem _ hrm', hq'⟩

theorem set_relabel_go_conflicts_le (R : List relabel_config)
    (l : List (String × metric_family)) (c n : Nat) :
    c ≤ (set_relabel_go R l c n).conflicts := by
  induction l generalizing c n with
  | nil => exact Nat.le_refl _
  | cons p t ih =>
    obtain ⟨nm, fam⟩ := p
    simp only [set_relabel_go]
    exact Nat.le_trans (relabel_phase2_conflicts_le _ _ _ _) (ih _ _)

/-! ## C2: idempotence of `set_relabel_configs` -/

/-- The observable of claim C2: the map keys and current label set of every
registered metric of one family. -/
def famView (f : metric_family) : List (Labels × Labels) :=
  f.instances.map fun p => (p.1, p.2.info.labels)

/-- The observable of claim C2 over the whole registry. -/
def vmView (vm : List (String × metric_family)) :
    List (String × List (Labels × Labels)) :=
  vm.map fun p => (p.1, famView p.2)

/-- After a conflict-free pass over one family, every entry's key equals its
metric's label set, and re-evaluating that metric from its original labels
reproduces that label set. -/
theorem post_family_inv (R : List relabel_config)
    (l : List (Labels × registered_metric)) (c n : Nat)
    (h : (relabel_phase2 (relabel_phase1 R l).rms
        (relabel_phase1 R l).kept c n).conflicts = c) :
    ∀ q ∈ (relabel_phase2 (relabel_phase1 R l).rms
        (relabel_phase1 R l).kept c n).fam,
      q.1 = q.2.info.labels ∧
      (apply_rules R (reset_info q.2.info)).labels = q.2.info.labels := by
  intro q hq
  rcases relabel_phase2_mem_of_no_conflict _ _ _ _ h q hq with hk | ⟨rm, hrm, hq'⟩
  · obtain ⟨p, hp, hqe, hkey⟩ := relabel_phase1_kept_mem R l q hk
    subst hqe
    exact ⟨hkey, apply_rules_reset_stable R p.2.info⟩
  · obtain ⟨p, hp, hrme, -⟩ := relabel_phase1_rms_mem R l rm hrm
    subst hq'
    subst hrme
    exact ⟨rfl, apply_rules_reset_stable R p.2.info⟩

/-- A conflict-free `set_relabel_configs` pass is idempotent on the
key/label-set view: running the same rule list again keeps every family's
keys and label sets and reports zero new conflicts. -/
theorem set_relabel_go_idem (R : List relabel_config)
    (l : List (String × metric_family)) (c n : Nat)
    (h : (set_relabel_go R l c n).conflicts = c) (c' n' : Nat) :
    vmView (set_relabel_go R (set_relabel_go R l c n).vm c' n').vm =
      vmView (set_relabel_go R l c n).vm ∧
    (set_relabel_go R (set_relabel_go R l c n).vm c' n').conflicts = c' := by
  induction l generalizing c n c' n' with
  | nil => exact ⟨rfl, rfl⟩
  | cons p t ih =>
    obtain ⟨nm, fam⟩ := p
    have hgo : set_relabel_go R ((nm, fam) :: t) c n =
        ⟨(nm, { fam with instances :=
            (relabel_phase2 (relabel_phase1 R fam.instances).rms
              (relabel_phase1 R fam.instances).kept c n).fam }) ::
          (set_relabel_go R t
            (relabel_phase2 (relabel_phase1 R fam.instances).rms
              (relabel_phase1 R fam.instances).kept c n).conflicts
            (relabel_phase2 (relabel_phase1 R fam.instances).rms
              (relabel_phase1 R fam.instances).kept c n).ctr).vm,
          (set_relabel_go R t
            (relabel_phase2 (relabel_phase1 R fam.instances).rms
              (relabel_phase1 R fam.instances).kept c n).conflicts
            (relabel_phase2 (relabel_phase1 R fam.instances).rms
              (relabel_phase1 R fam.instances).kept c n).ctr).conflicts,
          (set_relabel_go R t
            (relabel_phase2 (relabel_phase1 R fam.instances).rms
              (relabel_phase1 R fam.instances).kept c n).conflicts
            (relabel_phase2 (relabel_phase1 R fam.instances).rms
              (relabel_phase1 R fam.instances).kept c n).ctr).ctr,
          (relabel_phase1 R fam.instances).changed ||
          (set_relabel_go R t
            (relabel_phase2 (relabel_phase1 R fam.instances).rms
              (relabel_phase1 R fam.instances).kept c n).conflicts
            (relabel_phase2 (relabel_phase1 R fam.instances).rms
              (relabel_phase1 R fam.instances).kept c n).ctr).changed⟩ := rfl
    have hrestc : (set_relabel_go R t
        (relabel_phase2 (relabel_phase1 R fam.instances).rms
          (relabel_phase1 R fam.instances).kept c n).conflicts
        (relabel_phase2 (relabel_phase1 R fam.instances).rms
          (relabel_phase1 R fam.instances).kept c n).ctr).conflicts = c := by
      rw [hgo] at h
      exact h
    have hp2c : (relabel_phase2 (relabel_phase1 R fam.instances).rms
        (relabel_phase1 R fam.instances).kept c n).conflicts = c := by
      have h1 := relabel_phase2_conflicts_le (relabel_phase1 R fam.instances).rms
        (relabel_phase1 R fam.instances).kept c n
      have h2 := set_relabel_go_conflicts_le R t
        (relabel_phase2 (relabel_phase1 R fam.instances).rms
          (relabel_phase1 R fam.instances).kept c n).conflicts
        (relabel_phase2 (relabel_phase1 R fam.instances).rms
          (relabel_phase1 R fam.instances).kept c n).ctr
      omega
    have hinv := post_family_inv R fam.instances c n hp2c
    have hall : ∀ q ∈ (relabel_phase2 (relabel_phase1 R fam.instances).rms
        (relabel_phase1 R fam.instances).kept c n).fam,
        q.1 = (apply_rules R (reset_info q.2.info)).labels :=
      fun q hq => ((hinv q hq).1).trans ((hinv q hq).2).symm
    obtain ⟨hk2, hr2⟩ := relabel_phase1_all_kept R
      (relabel_phase2 (relabel_phase1 R fam.instances).rms
        (relabel_phase1 R fam.instances).kept c n).fam hall
    have hih := ih
      (relabel_phase2 (relabel_phase1 R fam.instances).rms
        (relabel_phase1 R fam.instances).kept c n).conflicts
      (relabel_phase2 (relabel_phase1 R fam.instances).rms
        (relabel_phase1 R fam.instances).kept c n).ctr
      (hrestc.trans hp2c.symm) c' n'
    rw [hgo]
    simp only [set_relabel_go, hr2, hk2, relabel_phase2]
    constructor
    · simp only [vmView, famView, List.map_cons, List.cons.injEq, Prod.mk.injEq,
        List.map_map, true_and]
      refine ⟨?_, ?_⟩
      · refine List.map_congr_left fun q hq => ?_
        have h1 := (hinv q hq).1
        have h2 := (hinv q hq).2
        simp only [Function.comp]
        rw [h2, ← h1]
      · have h3 := hih.1
        simp only [vmView, famView] at h3
        exact h3
    · exact hih.2

/-- A registry holding two metrics of one family whose original label sets
coincide (reachable only through an exotic register/relabel/remove history,
but a legal state of the data model): re-evaluation makes them collide. -/
def c2x_s : impl_state :=
  { empty_impl with
    value_map := [("g_n",
      ⟨[([], ⟨⟨"g", "n", [], [], true, false⟩, 1⟩),
        ([("a", "1")], ⟨⟨"g", "n", [("a", "1")], [], true, false⟩, 2⟩)],
        ⟨.gauge, "", "", "g_n", []⟩⟩)] }

/-- Claim C2 counterexample: two successive `set_relabel_configs` calls with
the same rule list (here the empty list) produce different label sets.  Both
metrics reset to the same original label set, so each call hits the
collision path and draws a fresh disambiguation identifier: the colliding
metric carries `err -> uid-0` after the first call but `err -> uid-1` after
the second. -/
theorem c2_counterexample :
    vmView (set_relabel_configs c2x_s []).1.value_map =
      [("g_n", [([], []), ([("err", "uid-0")], [("err", "uid-0")])])] ∧
    vmView (set_relabel_configs (set_relabel_configs c2x_s []).1 []).1.value_map =
      [("g_n", [([], []), ([("err", "uid-1")], [("err", "uid-1")])])] ∧
    vmView (set_relabel_configs (set_relabel_configs c2x_s []).1 []).1.value_map ≠
      vmView (set_relabel_configs c2x_s []).1.value_map :=
  ⟨rfl, rfl, by decide⟩

/-- Claim C2 (amended): whenever the first call reports zero collisions,
calling `set_relabel_configs` twice in a row with the same rule list yields
identical keys and label sets for every registered metric after each of the
two calls, and the second call reports zero collisions as well.  (When a
collision occurs, the colliding metric's synthetic `err` label draws a fresh
random identifier on every call, so exact idempotence fails — see the
counterexample.) -/
theorem c2_set_relabel_configs_idempotent (s : impl_state)
    (R : List relabel_config) (h : (set_relabel_configs s R).2 = 0) :
    vmView (set_relabel_configs (set_relabel_configs s R).1 R).1.value_map =
      vmView (set_relabel_configs s R).1.value_map ∧
    (set_relabel_configs (set_relabel_configs s R).1 R).2 = 0 :=
  set_relabel_go_idem R s.value_map 0 s.uid_counter h 0
    (set_relabel_go R s.value_map 0 s.uid_counter).ctr

/-- A registry holding one ordinarily-labeled metric, relabeled without
collisions. -/
def c2w_s : impl_state :=
  { empty_impl with
    value_map := [("g_n",
      ⟨[([], ⟨⟨"g", "n", [], [], true, false⟩, 1⟩)],
        ⟨.gauge, "", "", "g_n", []⟩⟩)] }

theorem c2_set_relabel_configs_idempotent_witness :
    (set_relabel_configs c2w_s []).2 = 0 ∧
    (vmView (set_relabel_configs (set_relabel_configs c2w_s []).1 []).1.value_map =
        vmView (set_relabel_configs c2w_s []).1.value_map ∧
      (set_relabel_configs (set_relabel_configs c2w_s []).1 []).2 = 0) :=
  ⟨rfl, c2_set_relabel_configs_idempotent c2w_s [] rfl⟩

/-! ## C7: clearing the relabel configuration -/

theorem pairwise_ne_inj {α β : Type} (f : α → β) (l : List α)
    (h : l.Pairwise fun x y => f x ≠ f y) (a b : α) (ha : a ∈ l) (hb : b ∈ l)
    (hf : f a = f b) : a = b := by
  induction l with
  | nil => cases ha
  | cons x t ih =>
    rcases List.pairwise_cons.mp h with ⟨hx, ht⟩
    rcases List.mem_cons.mp ha with ha' | ha' <;>
      rcases List.mem_cons.mp hb with hb' | hb'
    · rw [ha', hb']
    · subst ha'
      exact absurd hf (hx b hb')
    · subst hb'
      exact absurd hf.symm (hx a ha')
    · exact ih ht ha' hb'

theorem c7_phase1_rms_pairwise (l : List (Labels × registered_metric))
    (hdist : l.Pairwise fun a b => a.2.info.original ≠ b.2.info.original) :
    (relabel_phase1 [] l).rms.Pairwise
      fun a b => a.info.labels ≠ b.info.labels := by
  induction l with
  | nil => exact List.Pairwise.nil
  | cons p t ih =>
    rcases List.pairwise_cons.mp hdist with ⟨hd, tl⟩
    by_cases hc : p.1 = (apply_rules [] (reset_info p.2.info)).labels
    · simp only [relabel_phase1, hc, if_pos]
      exact ih tl
    · simp only [relabel_phase1]
      rw [if_neg hc]
      refine List.Pairwise.cons (fun b hb => ?_) (ih tl)
      obtain ⟨p', hp', hb', -⟩ := relabel_phase1_rms_mem [] t b hb
      rw [hb']
      exact hd p' hp'

theorem c7_phase1_fresh (l : List (Labels × registered_metric))
    (hdist : l.Pairwise fun a b => a.2.info.original ≠ b.2.info.original) :
    ∀ rm ∈ (relabel_phase1 [] l).rms,
      alookup (relabel_phase1 [] l).kept rm.info.labels = none := by
  intro rm hrm
  obtain ⟨p, hp, hrme, hpne⟩ := relabel_phase1_rms_mem [] l rm hrm
  rw [alookup_eq_none_iff]
  intro hkmem
  obtain ⟨q, hq, hqk⟩ := List.mem_map.mp hkmem
  obtain ⟨p', hp', hqe, hk'⟩ := relabel_phase1_kept_mem [] l q hq
  have e1 : rm.info.labels = p.2.info.original := by
    rw [hrme]
    rfl
  have e2 : q.1 = p'.2.info.original := by rw [hqe]; exact hk'
  have horig : p.2.info.original = p'.2.info.original :=
    (e1.symm.trans hqk.symm).trans e2
  have hpp : p = p' :=
    pairwise_ne_inj (fun x => x.2.info.original) l hdist p p' hp hp' horig
  apply hpne
  rw [hpp]
  exact hk'

theorem c7_phase2_no_collision (rms : List registered_metric)
    (fam : List (Labels × registered_metric)) (c n : Nat)
    (hfresh : ∀ rm ∈ rms, alookup fam rm.info.labels = none)
    (hdist : rms.Pairwise fun a b => a.info.labels ≠ b.info.labels) :
    (relabel_phase2 rms fam c n).conflicts = c ∧
    ∀ q ∈ (relabel_phase2 rms fam c n).fam,
      q ∈ fam ∨ ∃ rm ∈ rms, q = (rm.info.labels, rm) := by
  induction rms generalizing fam with
  | nil => exact ⟨rfl, fun q hq => Or.inl hq⟩
  | cons rm t ih =>
    rcases List.pairwise_cons.mp hdist with ⟨hd, tl⟩
    have hcol : ¬((alookup fam rm.info.labels).isSome = true) := by
      rw [hfresh rm (List.mem_cons_self _ _)]
      simp
    simp only [relabel_phase2]
    rw [if_neg hcol]
    have hfresh' : ∀ rm' ∈ t,
        alookup (ainsert labelsLt fam rm.info.labels rm) rm'.info.labels = none := by
      intro rm' hrm'
      rw [alookup_ainsert_ne _ _ _ _ _ (Ne.symm (hd rm' hrm'))]
      exact hfresh rm' (List.mem_cons_of_mem _ hrm')
    obtain ⟨ihc, ihm⟩ := ih _ hfresh' tl
    refine ⟨ihc, fun q hq => ?_⟩
    rcases ihm q hq with h' | ⟨rm', hrm', hq'⟩
    · rcases mem_ainsert _ _ _ _ _ h' with h'' | h''
      · exact Or.inr ⟨rm, List.mem_cons_self _ _, h''⟩
      · exact Or.inl h''
    · exact Or.inr ⟨rm', List.mem_cons_of_mem _ hrm', hq'⟩

theorem c7_family (l : List (Labels × registered_metric)) (c n : Nat)
    (hdist : l.Pairwise fun a b => a.2.info.original ≠ b.2.info.original) :
    (relabel_phase2 (relabel_phase1 [] l).rms
      (relabel_phase1 [] l).kept c n).conflicts = c ∧
    ∀ q ∈ (relabel_phase2 (relabel_phase1 [] l).rms
        (relabel_phase1 [] l).kept c n).fam,
      q.2.info.labels = q.2.info.original ∧ q.1 = q.2.info.original := by
  obtain ⟨hc, hm⟩ := c7_phase2_no_collision _ _ c n
    (c7_phase1_fresh l hdist) (c7_phase1_rms_pairwise l hdist)
  refine ⟨hc, fun q hq => ?_⟩
  rcases hm q hq with hk | ⟨rm, hrm, hq'⟩
  · obtain ⟨p, hp, hqe, hk'⟩ := relabel_phase1_kept_mem [] l q hk
    subst hqe
    exact ⟨rfl, hk'⟩
  · obtain ⟨p, hp, hrme, -⟩ := relabel_phase1_rms_mem [] l rm hrm
    subst hq'
    subst hrme
    exact ⟨rfl, rfl⟩

theorem c7_go (l : List (String × metric_family)) (c n : Nat)
    (hdist : ∀ fp ∈ l, (fp.2 : metric_family).instances.Pairwise
      fun a b => a.2.info.original ≠ b.2.info.original) :
    (set_relabel_go [] l c n).conflicts = c ∧
    ∀ fp ∈ (set_relabel_go [] l c n).vm, ∀ q ∈ (fp.2 : metric_family).instances,
      q.2.info.labels = q.2.info.original ∧ q.1 = q.2.info.original := by
  induction l generalizing c n with
  | nil => exact ⟨rfl, fun fp hfp => by cases hfp⟩
  | cons p t ih =>
    obtain ⟨nm, fam⟩ := p
    obtain ⟨hc1, hm1⟩ := c7_family fam.instances c n
      (hdist (nm, fam) (List.mem_cons_self _ _))
    obtain ⟨ihc, ihm⟩ := ih
      (relabel_phase2 (relabel_phase1 [] fam.instances).rms
        (relabel_phase1 [] fam.instances).kept c n).conflicts
      (relabel_phase2 (relabel_phase1 [] fam.instances).rms
        (relabel_phase1 [] fam.instances).kept c n).ctr
      (fun fp hfp => hdist fp (List.mem_cons_of_mem _ hfp))
    constructor
    · show (set_relabel_go [] t
        (relabel_phase2 (relabel_phase1 [] fam.instances).rms
          (relabel_phase1 [] fam.instances).kept c n).conflicts
        (relabel_phase2 (relabel_phase1 [] fam.instances).rms
          (relabel_phase1 [] fam.instances).kept c n).ctr).conflicts = c
      rw [ihc, hc1]
    · intro fp hfp
      rcases List.mem_cons.mp hfp with h' | h'
      · intro q hq
        rw [h'] at hq
        exact hm1 q hq
      · exact ihm fp h'

/-- The C2 counterexample registry again (a separate copy for claim C7):
two metrics of one family sharing the same original label set. -/
def c7x_s : impl_state :=
  { empty_impl with
    value_map := [("g_n",
      ⟨[([], ⟨⟨"g", "n", [], [], true, false⟩, 1⟩),
        ([("a", "1")], ⟨⟨"g", "n", [("a", "1")], [], true, false⟩, 2⟩)],
        ⟨.gauge, "", "", "g_n", []⟩⟩)] }

/-- Claim C7 counterexample: after `set_relabel_configs []` on a registry
where two metrics of one family share the same original label set, the
displaced metric collides on re-insertion and ends up with labels
`{err -> uid-0}`, different from its original (empty) label set: an empty
rule list does not always restore original labels. -/
theorem c7_counterexample :
    ((alookup (set_relabel_configs c7x_s []).1.value_map "g_n").map fun fam =>
      fam.instances.map fun q => (q.1, q.2.info.labels, q.2.info.original)) =
      some [([], [], []), ([("err", "uid-0")], [("err", "uid-0")], [])] ∧
    ([("err", "uid-0")] : Labels) ≠ [] :=
  ⟨rfl, by decide⟩

/-- Claim C7 (amended): calling `set_relabel_configs` with an empty rule
list clears all relabeling on every registry whose families hold pairwise
distinct original label sets (which add_registration's duplicate check
maintains in ordinary histories): the call reports zero collisions and
afterwards every registered metric sits under its original label set, which
is also its current label set.  (When two metrics of one family share an
original label set they collide on re-insertion and one receives the
synthetic `err` label instead — see the counterexample.) -/
theorem c7_empty_rules_restore_originals (s : impl_state)
    (hdist : ∀ fp ∈ s.value_map, (fp.2 : metric_family).instances.Pairwise
      fun a b => a.2.info.original ≠ b.2.info.original) :
    (set_relabel_configs s []).2 = 0 ∧
    ∀ fp ∈ (set_relabel_configs s []).1.value_map,
      ∀ q ∈ (fp.2 : metric_family).instances,
        q.2.info.labels = q.2.info.original ∧ q.1 = q.2.info.original :=
  c7_go s.value_map 0 s.uid_counter hdist

/-- A registry with two ordinarily-labeled metrics for the C7 witness. -/
def c7w_s : impl_state :=
  { empty_impl with
    value_map := [("g_n",
      ⟨[([], ⟨⟨"g", "n", [], [("x", "2")], true, false⟩, 1⟩),
        ([("a", "1")], ⟨⟨"g", "n", [("a", "1")], [("a", "1")], true, false⟩, 2⟩)],
        ⟨.gauge, "", "", "g_n", []⟩⟩)] }

theorem c7_empty_rules_restore_originals_witness :
    (∀ fp ∈ c7w_s.value_map, (fp.2 : metric_family).instances.Pairwise
      fun a b => a.2.info.original ≠ b.2.info.original) ∧
    ((set_relabel_configs c7w_s []).2 = 0 ∧
      ∀ fp ∈ (set_relabel_configs c7w_s []).1.value_map,
        ∀ q ∈ (fp.2 : metric_family).instances,
          q.2.info.labels = q.2.info.original ∧ q.1 = q.2.info.original) :=
  ⟨by decide, c7_empty_rules_restore_originals c7w_s (by decide)⟩

end SeastarMetrics
